import Mathlib

/-!
A verification development for a multi-source news-scraping pipeline
(`programminglanguage2023_refactored.py`).  The Python source is shallowly
embedded: each class method relevant to the properties below is translated
into an executable Lean definition, and the properties are proved about
those definitions.

Components embedded here:
* `NewsItem` — the record type with its validating constructor (`__init__`).
* `HTTPClient.fetch` — the retrying fetch loop with exponential backoff.
* `NewsParser.safe_get_text` / `safe_get_attr` and `Liputan6Parser.parse` —
  the extraction step.
* `NewsScraping.init` / `createParser` — poller construction and the parser
  factory.
* `pushBatch`, `intervalSleep`, `scrapeLoop` — the poller cycle loop.
* `start_thread` — the start protocol.
* `deliver` / `seenAfter` / `mainLoop` — the aggregator (`main_thread`).
-/

namespace NewsScraper

/-! ## NewsItem (`NewsItem.__init__`, source lines 16-25) -/

/-- The news record: four string fields, mirroring `NewsItem`. -/
structure NewsItem where
  name : String
  title : String
  desc : String
  timestamp : String
deriving DecidableEq, Repr

/-- Embedding of `NewsItem.__init__`: `if not all([name, title, desc,
timestamp]): raise ValueError("All fields must be non-empty")`.  Python
truthiness makes exactly the empty string falsy here, so the constructor
fails iff some field is the empty string. -/
def NewsItem.init (name title desc timestamp : String) : Except String NewsItem :=
  if name = "" ∨ title = "" ∨ desc = "" ∨ timestamp = "" then
    .error "All fields must be non-empty"
  else
    .ok ⟨name, title, desc, timestamp⟩

/-! ## HTTPClient.fetch (source lines 36-53)

The transport (`self.session.get` followed by `raise_for_status`) is
abstracted as a function from the attempt index to one of three outcomes,
matching the except-clauses of the source: a successful body, a
`requests.exceptions.Timeout` (which is logged and retried), or any other
`requests.exceptions.RequestException` (connection error, DNS failure,
non-2xx status raised by `raise_for_status`), which `break`s out of the
loop immediately.  `Timeout` is a subclass of `RequestException` but the
`except Timeout` clause comes first in the source, so the three cases are
disjoint exactly as modelled. -/

inductive TransportResult where
  | success (content : String)
  | timeout
  | hardFailure
deriving DecidableEq, Repr

/-- Observable outcome of one `fetch` call: the returned value, the number
of transport attempts made, and the list of backoff sleeps (in seconds,
in order) performed between attempts. -/
structure FetchTrace where
  result : Option String
  attempts : Nat
  sleeps : List Nat
deriving DecidableEq, Repr

/-- The body of `for attempt in range(self.max_retries)`, recursing on the
number of remaining loop iterations (`fuel = max_retries - attempt`).
On success the text is returned; on a hard failure the loop `break`s (no
backoff sleep); on a timeout the loop sleeps `2 ** attempt` seconds iff
`attempt < self.max_retries - 1` and goes round again.  Falling off the
end of the loop returns `None`. -/
def fetchAux (tr : Nat → TransportResult) (maxRetries : Nat) :
    Nat → Nat → FetchTrace
  | 0, _ => ⟨none, 0, []⟩
  | fuel + 1, attempt =>
    match tr attempt with
    | .success c => ⟨some c, 1, []⟩
    | .hardFailure => ⟨none, 1, []⟩
    | .timeout =>
      let rest := fetchAux tr maxRetries fuel (attempt + 1)
      let sl := if attempt < maxRetries - 1 then [2 ^ attempt] else []
      ⟨rest.result, rest.attempts + 1, sl ++ rest.sleeps⟩

/-- Embedding of `HTTPClient.fetch` (default `max_retries = 3`): run the
attempt loop from attempt 0. -/
def HTTPClient.fetch (tr : Nat → TransportResult) (maxRetries : Nat) : FetchTrace :=
  fetchAux tr maxRetries maxRetries 0

/-! ## Parsers (`NewsParser`, `Liputan6Parser`, source lines 60-116)

`BeautifulSoup` elements are abstracted as a text plus an attribute
association list.  A candidate headline holds the three (possibly absent)
sub-elements that `Liputan6Parser.parse` looks up, plus a flag recording
whether processing it raises an escaped exception (the situation the
per-item `try/except` guards against).  The soup is the site title string
(if any) together with the list of candidates; `none` at the very top
models `BeautifulSoup` itself (or anything before the loop) raising, which
the outer `try/except` turns into the empty batch. -/

structure Element where
  text : String
  attrs : List (String × String)
deriving DecidableEq, Repr

/-- `NewsParser.safe_get_text`: `None` yields the empty string, otherwise
the element's (stripped) text. -/
def safe_get_text : Option Element → String
  | none => ""
  | some e => e.text

/-- `NewsParser.safe_get_attr`: `None` yields the empty string, otherwise
`element.get(attr, "")`. -/
def safe_get_attr (e : Option Element) (attr : String) : String :=
  match e with
  | none => ""
  | some el => (((el.attrs.find? fun p => p.1 = attr).map Prod.snd).getD "")

/-- One `div.headline--main__wrapper` candidate of `Liputan6Parser.parse`. -/
structure Headline where
  title_elem : Option Element
  desc_elem : Option Element
  time_elem : Option Element
  raises : Bool
deriving DecidableEq, Repr

structure Soup where
  head_title : Option String
  headlines : List Headline
deriving DecidableEq, Repr

/-- `Liputan6Parser._get_site_name`: `soup.head.find('title').string or
"Liputan6"` — a missing or empty (falsy) title string falls back to
`"Liputan6"`. -/
def getSiteName (soup : Soup) : String :=
  match soup.head_title with
  | some s => if s = "" then "Liputan6" else s
  | none => "Liputan6"

/-- The body of the per-headline loop of `Liputan6Parser.parse`: an escaped
exception is caught and the item skipped (`continue`); otherwise the three
fields are extracted safely and a `NewsItem` is appended only when title,
description and timestamp are all truthy (a `ValueError` from the
constructor would likewise be caught and skip the item). -/
def parseHeadline (website_name : String) (h : Headline) : List NewsItem :=
  if h.raises then []
  else
    let title := safe_get_text h.title_elem
    let desc := safe_get_text h.desc_elem
    let timestamp := safe_get_attr h.time_elem "datetime"
    if title ≠ "" ∧ desc ≠ "" ∧ timestamp ≠ "" then
      match NewsItem.init website_name title desc timestamp with
      | .ok item => [item]
      | .error _ => []
    else []

/-- `Liputan6Parser.parse`: the whole batch, with the outer `try/except`
returning the (empty) accumulated list when soup construction raises. -/
def Liputan6Parser.parse (doc : Option Soup) : List NewsItem :=
  match doc with
  | none => []
  | some soup => (soup.headlines.map (parseHeadline (getSiteName soup))).flatten

/-! ## NewsScraping construction (source lines 206-232) -/

/-- The two `ValueError`s that `NewsScraping.__init__` can raise, kept
distinct by their messages: `"Invalid parameters"` (the spec's
ValidationError) and `"Unsupported news site"` (the spec's
UnsupportedSourceError). -/
inductive ScrapeError where
  | invalidParameters
  | unsupportedNewsSite
deriving DecidableEq, Repr

inductive ParserKind where
  | liputan6
  | bisnis
  | abc
deriving DecidableEq, Repr

/-- `NewsScraping._create_parser`: exact string comparison of the url
against the three known sites; anything else raises. -/
def createParser (news_site : String) : Except ScrapeError ParserKind :=
  if news_site = "https://www.liputan6.com/" then .ok .liputan6
  else if news_site = "https://www.bisnis.com/" then .ok .bisnis
  else if news_site = "https://www.abc.net.au/news/indonesian" then .ok .abc
  else .error .unsupportedNewsSite

/-- The poller state built by a successful `NewsScraping.__init__`:
`stop_event` starts clear and `self.thread = None` — no thread is started
by construction. -/
structure NewsScraping where
  news_site : String
  interval : Int
  stopSet : Bool
  parser : ParserKind
  threadStarted : Bool
deriving DecidableEq, Repr

/-- `NewsScraping.__init__`: `if not news_site or interval <= 0: raise
ValueError("Invalid parameters")`, then the parser factory runs
synchronously (raising for an unknown site) before the constructor
returns; the thread field is left `None`. -/
def NewsScraping.init (news_site : String) (interval : Int) :
    Except ScrapeError NewsScraping :=
  if news_site = "" ∨ interval ≤ 0 then .error .invalidParameters
  else
    match createParser news_site with
    | .error e => .error e
    | .ok p => .ok ⟨news_site, interval, false, p, false⟩

/-! ## The poller cycle (`NewsScraping.scrape_news`, source lines 238-257)

Wall-clock state of `stop_event` is abstracted as a Boolean function of a
step counter: `stop i` is the value `self.stop_event.is_set()` returns at
the i-th check.  Since `threading.Event.clear` is only called from
`start_thread`, the event is monotone within a run of the loop. -/

/-- Lines 245-247: `for news_item in news_data: if not
self.stop_event.is_set(): self.news_queue.put(news_item)` — the stop
signal is checked before each push; the i-th check reads `stop i`.
Returns the records actually pushed, in order. -/
def pushBatch (stop : Nat → Bool) : List NewsItem → Nat → List NewsItem
  | [], _ => []
  | r :: rs, i =>
    if stop i then pushBatch stop rs (i + 1)
    else r :: pushBatch stop rs (i + 1)

/-- Lines 250-253, the interruptible interval sleep: `for _ in
range(self.interval): if self.stop_event.is_set(): break; time.sleep(1)`.
Returns the number of one-second sleeps performed, i.e. the wait's
duration in seconds; `stop j` is the check made after j seconds have
elapsed. -/
def intervalSleepAux (stop : Nat → Bool) : Nat → Nat → Nat
  | 0, _ => 0
  | n + 1, j => if stop j then 0 else intervalSleepAux stop n (j + 1) + 1

def intervalSleep (stop : Nat → Bool) (interval : Nat) : Nat :=
  intervalSleepAux stop interval 0

/-- Line 51 of `HTTPClient.fetch`: `time.sleep(2 ** attempt)` — a plain
sleep; its duration does not consult any stop signal, which the unused
argument makes explicit. -/
def backoffWait (stop : Nat → Bool) (attempt : Nat) : Nat :=
  let _ := stop
  2 ^ attempt

/-- Line 301 of `main_thread`: `time.sleep(1)` — the aggregator's fixed
per-tick sleep, likewise a plain sleep of constant duration. -/
def aggregatorTickSleep (stop : Nat → Bool) : Nat :=
  let _ := stop
  1

/-- Outcome of the fetch-and-extract step of one cycle: either a batch of
parsed records (possibly empty, covering both content and the fetcher's
`None`), or an escaped exception caught by the `except` on line 255. -/
inductive CycleOutcome where
  | ok (items : List NewsItem)
  | err
deriving DecidableEq, Repr

/-- Observable event of one iteration of the `while` loop: a normal cycle
(with the records its batch pushed) or a caught error followed by the
fixed pause (`time.sleep(5)`, line 257). -/
inductive CycleEvent where
  | scraped (cycle : Nat) (pushed : List NewsItem)
  | errorPause (cycle : Nat) (pauseSeconds : Nat)
deriving DecidableEq, Repr

/-- The `while not self.stop_event.is_set():` loop of `scrape_news`,
run for at most `fuel` iterations starting at cycle index `i`; `stop i`
is the loop-condition check of cycle i and `outcome i` the fate of its
body.  Both the normal branch and the caught-exception branch fall
through to the next iteration: only the loop condition exits. -/
def scrapeLoop (stop : Nat → Bool) (outcome : Nat → CycleOutcome) :
    Nat → Nat → List CycleEvent
  | 0, _ => []
  | fuel + 1, i =>
    if stop i then []
    else
      match outcome i with
      | .ok items => .scraped i items :: scrapeLoop stop outcome fuel (i + 1)
      | .err => .errorPause i 5 :: scrapeLoop stop outcome fuel (i + 1)

/-! ## start_thread (source lines 259-268) -/

/-- The state `start_thread` reads and writes: whether `self.thread` is a
live thread, and whether `self.stop_event` is set. -/
structure PollerCtl where
  threadAlive : Bool
  stopSet : Bool
deriving DecidableEq, Repr

/-- `NewsScraping.start_thread`: if the thread is already alive, log
"Thread already running" and return unchanged; otherwise clear the stop
event and start the loop thread.  The Boolean result records whether the
already-running warning was emitted. -/
def start_thread (s : PollerCtl) : PollerCtl × Bool :=
  if s.threadAlive then (s, true)
  else (⟨true, false⟩, false)

/-! ## The aggregator (`main_thread`, source lines 280-308)

Record identity is the exact tuple `(news.name, news.title, news.desc,
news.timestamp)` (line 290). -/

abbrev Tup := String × String × String × String

def identTuple (n : NewsItem) : Tup :=
  (n.name, n.title, n.desc, n.timestamp)

/-- The per-record body of the drain loop (lines 289-298), iterated over a
sequence of dequeued records: a record whose tuple is already in
`seen_news` is silently dropped; otherwise it is forwarded to the sink
(printed) and its tuple added.  Returns the records forwarded, in order. -/
def deliver (seen : List Tup) : List NewsItem → List NewsItem
  | [] => []
  | r :: rs =>
    if identTuple r ∈ seen then deliver seen rs
    else r :: deliver (identTuple r :: seen) rs

/-- The `seen_news` set after the same iteration. -/
def seenAfter (seen : List Tup) : List NewsItem → List Tup
  | [] => seen
  | r :: rs =>
    if identTuple r ∈ seen then seenAfter seen rs
    else seenAfter (identTuple r :: seen) rs

/-- The aggregator's view of one scraper: its output queue contents and
its `stop_event`. -/
structure ScraperView where
  queue : List NewsItem
  stopSet : Bool
deriving DecidableEq, Repr

structure AggState where
  scrapers : List ScraperView
  seen : List Tup
deriving DecidableEq, Repr

/-- The `for scraper in news_scrapers:` pass of one tick: each scraper's
queue is drained to empty through the shared `seen_news`, in list order.
Returns the scrapers with emptied queues, the grown seen set, and the
records forwarded this tick. -/
def drainScrapers (seen : List Tup) :
    List ScraperView → List ScraperView × List Tup × List NewsItem
  | [] => ([], seen, [])
  | s :: ss =>
    let out := deliver seen s.queue
    let seen1 := seenAfter seen s.queue
    let rest := drainScrapers seen1 ss
    (⟨[], s.stopSet⟩ :: rest.1, rest.2.1, out ++ rest.2.2)

/-- The `while not all(scraper.stop_event.is_set() for scraper in
news_scrapers):` loop of `main_thread`, run for at most `fuel` ticks.
When the condition fails (every stop event set) the loop exits with the
state as it stands — queues are not drained first.  Returns all records
forwarded and the final state. -/
def mainLoop : Nat → AggState → List NewsItem × AggState
  | 0, st => ([], st)
  | fuel + 1, st =>
    if st.scrapers.all (fun s => s.stopSet) then ([], st)
    else
      let d := drainScrapers st.seen st.scrapers
      let rest := mainLoop fuel ⟨d.1, d.2.1⟩
      (d.2.2 ++ rest.1, rest.2)

/-! ## Concrete instances used in the example evaluations below -/

def alwaysTimeout : Nat → TransportResult := fun _ => .timeout

def alwaysHardFailure : Nat → TransportResult := fun _ => .hardFailure

def twoTimeoutsThenSuccess : Nat → TransportResult := fun n =>
  if n < 2 then .timeout else .success "ok"

def sampleItem : NewsItem := ⟨"SiteA", "T1", "D1", "2023-01-01"⟩

def goodHeadline : Headline :=
  ⟨some ⟨"T1", []⟩, some ⟨"D1", []⟩, some ⟨"", [("datetime", "2023-01-01")]⟩, false⟩

def badHeadline : Headline := ⟨none, none, none, true⟩

/-! ## Lemmas about the fetch loop -/

theorem fetchAux_success (tr : Nat → TransportResult) (maxRetries : Nat) (c : String) :
    ∀ (k fuel attempt : Nat), attempt + fuel = maxRetries → k < fuel →
      (∀ i, i < k → tr (attempt + i) = .timeout) → tr (attempt + k) = .success c →
      fetchAux tr maxRetries fuel attempt =
        ⟨some c, k + 1, (List.range k).map fun j => 2 ^ (attempt + j)⟩ := by
  intro k
  induction k with
  | zero =>
    intro fuel attempt hsum hk hto hs
    obtain ⟨f, rfl⟩ : ∃ f, fuel = f + 1 := ⟨fuel - 1, by omega⟩
    simp only [Nat.add_zero] at hs
    simp [fetchAux, hs]
  | succ k ih =>
    intro fuel attempt hsum hk hto hs
    obtain ⟨f, rfl⟩ : ∃ f, fuel = f + 1 := ⟨fuel - 1, by omega⟩
    have h0 : tr attempt = .timeout := by simpa using hto 0 (by omega)
    have hrest := ih f (attempt + 1) (by omega) (by omega)
      (fun i hi => by
        have h := hto (i + 1) (by omega)
        rwa [show attempt + (i + 1) = attempt + 1 + i by omega] at h)
      (by rwa [show attempt + (k + 1) = attempt + 1 + k by omega] at hs)
    have hlt : attempt < maxRetries - 1 := by omega
    have hsl : (2 ^ attempt) :: (List.range k).map (fun j => 2 ^ (attempt + 1 + j))
        = (List.range (k + 1)).map fun j => 2 ^ (attempt + j) := by
      rw [List.range_succ_eq_map, List.map_cons, List.map_map]
      refine congrArg₂ List.cons (by rw [Nat.add_zero]) ?_
      refine List.map_congr_left ?_
      intro a _
      simp only [Function.comp_apply]
      congr 1
      omega
    simp [fetchAux, h0, hrest, hlt, hsl]

theorem fetchAux_all_timeout (tr : Nat → TransportResult) (maxRetries : Nat)
    (h : ∀ i, tr i = .timeout) :
    ∀ fuel attempt, (fetchAux tr maxRetries fuel attempt).result = none ∧
      (fetchAux tr maxRetries fuel attempt).attempts = fuel := by
  intro fuel
  induction fuel with
  | zero => intro attempt; exact ⟨rfl, rfl⟩
  | succ f ih =>
    intro attempt
    simp [fetchAux, h attempt, (ih (attempt + 1)).1, (ih (attempt + 1)).2]

/-- C2: the retrying fetch contract of `HTTPClient.fetch`.  If the transport
times out on attempts `0, …, k-1` and succeeds on attempt `k < max_retries`,
fetch returns the content after `k + 1` attempts with backoff waits of
`2^0, …, 2^(k-1)` seconds; if the transport always times out, fetch returns
`None` after exactly `max_retries` attempts; if the transport hard-fails
(connection error, DNS failure, non-2xx status) on the first attempt,
fetch returns `None` after exactly 1 attempt and performs no backoff. -/
theorem retrying_fetch_contract (tr : Nat → TransportResult) (maxRetries : Nat) :
    (∀ k c, k < maxRetries → (∀ i, i < k → tr i = .timeout) → tr k = .success c →
        HTTPClient.fetch tr maxRetries =
          ⟨some c, k + 1, (List.range k).map fun j => 2 ^ j⟩) ∧
    ((∀ i, tr i = .timeout) →
        (HTTPClient.fetch tr maxRetries).result = none ∧
        (HTTPClient.fetch tr maxRetries).attempts = maxRetries) ∧
    (tr 0 = .hardFailure → 0 < maxRetries →
        HTTPClient.fetch tr maxRetries = ⟨none, 1, []⟩) := by
  refine ⟨?_, ?_, ?_⟩
  · intro k c hk hto hs
    have h := fetchAux_success tr maxRetries c k maxRetries 0 (by omega) hk
      (fun i hi => by simpa using hto i hi) (by simpa using hs)
    simpa [HTTPClient.fetch] using h
  · intro h
    exact fetchAux_all_timeout tr maxRetries h maxRetries 0
  · intro h hpos
    obtain ⟨f, rfl⟩ : ∃ f, maxRetries = f + 1 := ⟨maxRetries - 1, by omega⟩
    simp [HTTPClient.fetch, fetchAux, h]

theorem retrying_fetch_contract_witness :
    HTTPClient.fetch twoTimeoutsThenSuccess 3 =
      ⟨some "ok", 3, (List.range 2).map fun j => 2 ^ j⟩ ∧
    (HTTPClient.fetch alwaysTimeout 3).result = none ∧
    (HTTPClient.fetch alwaysTimeout 3).attempts = 3 ∧
    HTTPClient.fetch alwaysHardFailure 3 = ⟨none, 1, []⟩ := by
  refine ⟨?_, ?_, ?_⟩
  · exact (retrying_fetch_contract twoTimeoutsThenSuccess 3).1 2 "ok" (by omega)
      (by decide) (by decide)
  · exact ((retrying_fetch_contract alwaysTimeout 3).2.1 fun i => rfl).1
  · refine ⟨((retrying_fetch_contract alwaysTimeout 3).2.1 fun i => rfl).2, ?_⟩
    exact (retrying_fetch_contract alwaysHardFailure 3).2.2 rfl (by omega)

/-- C3: constructing a `NewsItem` with any one of the four fields empty
raises `ValueError("All fields must be non-empty")`; with all four fields
non-empty it succeeds and holds exactly those values. -/
theorem newsItem_validation (n t d ts : String) :
    ((n = "" ∨ t = "" ∨ d = "" ∨ ts = "") →
        NewsItem.init n t d ts = .error "All fields must be non-empty") ∧
    (n ≠ "" → t ≠ "" → d ≠ "" → ts ≠ "" →
        NewsItem.init n t d ts = .ok ⟨n, t, d, ts⟩) := by
  constructor
  · intro h
    simp [NewsItem.init, h]
  · intro h1 h2 h3 h4
    simp [NewsItem.init, h1, h2, h3, h4]

theorem newsItem_validation_witness :
    NewsItem.init "" "T1" "D1" "2023-01-01" = .error "All fields must be non-empty" ∧
    NewsItem.init "SiteA" "T1" "D1" "2023-01-01" =
      .ok ⟨"SiteA", "T1", "D1", "2023-01-01"⟩ :=
  ⟨(newsItem_validation "" "T1" "D1" "2023-01-01").1 (Or.inl rfl),
   (newsItem_validation "SiteA" "T1" "D1" "2023-01-01").2
     (by decide) (by decide) (by decide) (by decide)⟩

/-- C4: `NewsScraping.__init__` rejects an empty url or a non-positive
interval with the "Invalid parameters" error, rejects a url that does not
exactly match a known site with the "Unsupported news site" error — both
synchronously, the successful construction leaving the thread unstarted —
and succeeds on a known url with a positive interval. -/
theorem construction_validation (u : String) (i : Int) :
    ((u = "" ∨ i ≤ 0) → NewsScraping.init u i = .error .invalidParameters) ∧
    (u ≠ "" → 0 < i → createParser u = .error .unsupportedNewsSite →
        NewsScraping.init u i = .error .unsupportedNewsSite) ∧
    (∀ p, 0 < i → createParser u = .ok p →
        NewsScraping.init u i = .ok ⟨u, i, false, p, false⟩) ∧
    (0 < i → NewsScraping.init "https://unknown.example/" i =
        .error .unsupportedNewsSite) := by
  refine ⟨?_, ?_, ?_, ?_⟩
  · intro h
    simp [NewsScraping.init, h]
  · intro hu hi hcp
    have hni : ¬ i ≤ 0 := by omega
    simp [NewsScraping.init, hu, hni, hcp]
  · intro p hi hok
    have hu : u ≠ "" := by
      intro h
      subst h
      simp [createParser] at hok
    have hni : ¬ i ≤ 0 := by omega
    simp [NewsScraping.init, hu, hni, hok]
  · intro hi
    have hni : ¬ i ≤ 0 := by omega
    simp [NewsScraping.init, hni, createParser]

theorem construction_validation_witness :
    NewsScraping.init "https://www.liputan6.com/" 0 = .error .invalidParameters ∧
    NewsScraping.init "https://unknown.example/" 3600 = .error .unsupportedNewsSite ∧
    NewsScraping.init "https://www.liputan6.com/" 3600 =
      .ok ⟨"https://www.liputan6.com/", 3600, false, .liputan6, false⟩ :=
  ⟨(construction_validation "https://www.liputan6.com/" 0).1 (Or.inr le_rfl),
   (construction_validation "https://unknown.example/" 3600).2.2.2 (by omega),
   (construction_validation "https://www.liputan6.com/" 3600).2.2.1 .liputan6
     (by omega) (by simp [createParser])⟩

/-! ## Lemmas about the push loop -/

theorem pushBatch_nil_of_stop (stop : Nat → Bool)
    (mono : ∀ j, stop j = true → stop (j + 1) = true) :
    ∀ (rs : List NewsItem) (i : Nat), stop i = true → pushBatch stop rs i = [] := by
  intro rs
  induction rs with
  | nil => intro i _; rfl
  | cons r rs ih =>
    intro i h
    simp [pushBatch, h, ih (i + 1) (mono i h)]

theorem pushBatch_take (stop : Nat → Bool)
    (mono : ∀ j, stop j = true → stop (j + 1) = true) :
    ∀ (rs : List NewsItem) (i k : Nat), (∀ j, j < k → stop (i + j) = false) →
      stop (i + k) = true → pushBatch stop rs i = rs.take k := by
  intro rs
  induction rs with
  | nil => intro i k _ _; simp [pushBatch]
  | cons r rs ih =>
    intro i k hlt hk
    cases k with
    | zero =>
      simp only [Nat.add_zero] at hk
      rw [pushBatch_nil_of_stop stop mono (r :: rs) i hk]
      rfl
    | succ k =>
      have h0 : stop i = false := by simpa using hlt 0 (by omega)
      have hrest := ih (i + 1) k
        (fun j hj => by
          have h := hlt (j + 1) (by omega)
          rwa [show i + (j + 1) = i + 1 + j by omega] at h)
        (by rwa [show i + (k + 1) = i + 1 + k by omega] at hk)
      simp [pushBatch, h0, hrest]

/-- C5: in the push loop of a poller cycle the stop signal is checked
before each push: once the (monotone) stop signal is set at check `i`, no
record of the remaining batch is pushed, and if the signal first becomes
set at the k-th check, exactly the first k records of the batch are
pushed and the rest are dropped. -/
theorem stop_drops_remaining_batch (stop : Nat → Bool)
    (mono : ∀ j, stop j = true → stop (j + 1) = true) (rs : List NewsItem) :
    (∀ i, stop i = true → pushBatch stop rs i = []) ∧
    (∀ k, (∀ j, j < k → stop j = false) → stop k = true →
        pushBatch stop rs 0 = rs.take k) := by
  constructor
  · intro i h
    exact pushBatch_nil_of_stop stop mono rs i h
  · intro k hlt hk
    exact pushBatch_take stop mono rs 0 k (fun j hj => by simpa using hlt j hj)
      (by simpa using hk)

theorem stop_drops_remaining_batch_witness :
    pushBatch (fun j => decide (2 ≤ j)) [sampleItem, sampleItem, sampleItem] 2 = [] ∧
    pushBatch (fun j => decide (2 ≤ j)) [sampleItem, sampleItem, sampleItem] 0 =
      [sampleItem, sampleItem, sampleItem].take 2 := by
  have mono : ∀ j, (fun j => decide (2 ≤ j)) j = true →
      (fun j => decide (2 ≤ j)) (j + 1) = true := by
    intro j h
    simp only [decide_eq_true_eq] at h ⊢
    omega
  constructor
  · exact (stop_drops_remaining_batch (fun j => decide (2 ≤ j)) mono
      [sampleItem, sampleItem, sampleItem]).1 2 (by decide)
  · exact (stop_drops_remaining_batch (fun j => decide (2 ≤ j)) mono
      [sampleItem, sampleItem, sampleItem]).2 2 (by decide) (by decide)

/-- C6: an escaped exception in the fetch-and-extract step of cycle `i`
(with the stop signal unset at that cycle's loop check) produces the
logged error event with its fixed 5-second pause and then the loop goes
round again; and while the stop signal stays unset the loop never exits
on its own — it runs one cycle per unit of fuel. -/
theorem cycle_error_continues (stop : Nat → Bool) (outcome : Nat → CycleOutcome) :
    (∀ fuel i, stop i = false → outcome i = .err →
        scrapeLoop stop outcome (fuel + 1) i =
          .errorPause i 5 :: scrapeLoop stop outcome fuel (i + 1)) ∧
    (∀ fuel i, (∀ j, stop j = false) →
        (scrapeLoop stop outcome fuel i).length = fuel) := by
  constructor
  · intro fuel i h he
    simp [scrapeLoop, h, he]
  · intro fuel
    induction fuel with
    | zero => intro i _; rfl
    | succ f ih =>
      intro i h
      cases ho : outcome i <;> simp [scrapeLoop, h i, ho, ih (i + 1) h]

theorem cycle_error_continues_witness :
    scrapeLoop (fun _ => false) (fun _ => .err) 2 0 =
      .errorPause 0 5 :: scrapeLoop (fun _ => false) (fun _ => .err) 1 1 ∧
    (scrapeLoop (fun _ => false) (fun _ => .err) 3 0).length = 3 :=
  ⟨(cycle_error_continues (fun _ => false) (fun _ => .err)).1 1 0 rfl rfl,
   (cycle_error_continues (fun _ => false) (fun _ => .err)).2 3 0 (fun _ => rfl)⟩

/-- C9: `start_thread` is idempotent — on a poller whose thread is already
alive it is a no-op that only logs the already-running warning, on a
stopped poller it clears the stop event and starts the thread, and a
second `start_thread` leaves the state a single one produces. -/
theorem start_thread_idempotent (s : PollerCtl) :
    (s.threadAlive = true → start_thread s = (s, true)) ∧
    (s.threadAlive = false → start_thread s = (⟨true, false⟩, false)) ∧
    (start_thread s).1.threadAlive = true ∧
    start_thread (start_thread s).1 = ((start_thread s).1, true) := by
  obtain ⟨a, b⟩ := s
  cases a <;> simp [start_thread]

theorem start_thread_idempotent_witness :
    start_thread ⟨true, true⟩ = (⟨true, true⟩, true) ∧
    start_thread ⟨false, true⟩ = (⟨true, false⟩, false) :=
  ⟨(start_thread_idempotent ⟨true, true⟩).1 rfl,
   (start_thread_idempotent ⟨false, true⟩).2.1 rfl⟩

/-- C10: when every scraper's stop event is set, the aggregator loop exits
at its next loop-condition check without draining: it forwards nothing and
leaves the whole state — queue contents and seen set included — exactly as
it was. -/
theorem aggregator_exits_without_drain (st : AggState) (fuel : Nat)
    (h : ∀ s ∈ st.scrapers, s.stopSet = true) :
    mainLoop (fuel + 1) st = ([], st) := by
  have hall : st.scrapers.all (fun s => s.stopSet) = true :=
    List.all_eq_true.mpr h
  simp [mainLoop, hall]

theorem aggregator_exits_without_drain_witness :
    mainLoop 1 ⟨[⟨[sampleItem], true⟩], []⟩ = ([], ⟨[⟨[sampleItem], true⟩], []⟩) :=
  aggregator_exits_without_drain ⟨[⟨[sampleItem], true⟩], []⟩ 0 (by decide)

/-! ## Lemmas about the aggregator's dedup loop -/

theorem deliver_count_of_mem (t : Tup) :
    ∀ (rs : List NewsItem) (seen : List Tup), t ∈ seen →
      ((deliver seen rs).map identTuple).count t = 0 := by
  intro rs
  induction rs with
  | nil => intro seen _; rfl
  | cons r rs ih =>
    intro seen h
    by_cases hm : identTuple r ∈ seen
    · simpa [deliver, hm] using ih seen h
    · have hne : identTuple r ≠ t := fun he => hm (he ▸ h)
      simp [deliver, hm, List.count_cons, hne,
        ih (identTuple r :: seen) (List.mem_cons_of_mem _ h)]

theorem deliver_count_of_not_mem (t : Tup) :
    ∀ (rs : List NewsItem) (seen : List Tup), t ∉ seen →
      ((deliver seen rs).map identTuple).count t
        = if t ∈ rs.map identTuple then 1 else 0 := by
  intro rs
  induction rs with
  | nil => intro seen _; simp [deliver]
  | cons r rs ih =>
    intro seen h
    by_cases hm : identTuple r ∈ seen
    · have hne : t ≠ identTuple r := fun he => h (he ▸ hm)
      simp only [deliver, if_pos hm, ih seen h, List.map_cons, List.mem_cons, hne,
        false_or]
    · by_cases he : identTuple r = t
      · subst he
        have hmem : identTuple r ∈ identTuple r :: seen := List.mem_cons_self _ _
        simp [deliver, hm, List.count_cons, deliver_count_of_mem _ rs _ hmem]
      · have hne : t ≠ identTuple r := fun hh => he hh.symm
        have hnm : t ∉ identTuple r :: seen := by
          intro hh
          rcases List.mem_cons.mp hh with h1 | h1
          · exact hne h1
          · exact h h1
        simp [deliver, hm, List.count_cons, hne,
          ih (identTuple r :: seen) hnm]

theorem deliver_find_first (t : Tup) :
    ∀ (rs : List NewsItem) (seen : List Tup), t ∉ seen →
      (deliver seen rs).find? (fun r => identTuple r = t)
        = rs.find? (fun r => identTuple r = t) := by
  intro rs
  induction rs with
  | nil => intro seen _; rfl
  | cons r rs ih =>
    intro seen h
    by_cases he : identTuple r = t
    · have hm : identTuple r ∉ seen := fun hh => h (he ▸ hh)
      rw [deliver, if_neg hm, List.find?_cons_of_pos _ (by simpa using he),
        List.find?_cons_of_pos _ (by simpa using he)]
    · by_cases hm : identTuple r ∈ seen
      · rw [deliver, if_pos hm, ih seen h,
          List.find?_cons_of_neg _ (by simpa using he)]
      · have hnm : t ∉ identTuple r :: seen := by
          intro hh
          rcases List.mem_cons.mp hh with h1 | h1
          · exact he h1.symm
          · exact h h1
        rw [deliver, if_neg hm,
          List.find?_cons_of_neg _ (by simpa using he),
          List.find?_cons_of_neg _ (by simpa using he),
          ih (identTuple r :: seen) hnm]

theorem seenAfter_mem (t : Tup) :
    ∀ (rs : List NewsItem) (seen : List Tup),
      t ∈ seenAfter seen rs ↔ t ∈ seen ∨ t ∈ rs.map identTuple := by
  intro rs
  induction rs with
  | nil => intro seen; simp [seenAfter]
  | cons r rs ih =>
    intro seen
    by_cases hm : identTuple r ∈ seen
    · rw [seenAfter, if_pos hm, ih seen]
      simp only [List.map_cons, List.mem_cons]
      constructor
      · rintro (h1 | h1)
        · exact Or.inl h1
        · exact Or.inr (Or.inr h1)
      · rintro (h1 | h1 | h1)
        · exact Or.inl h1
        · exact Or.inl (h1 ▸ hm)
        · exact Or.inr h1
    · rw [seenAfter, if_neg hm, ih (identTuple r :: seen)]
      simp only [List.map_cons, List.mem_cons]
      tauto

/-- C1: over any sequence of records delivered to the aggregator's dedup
loop, each identity tuple occurring in the input is forwarded to the sink
exactly once, the forwarded record with a given tuple is exactly the first
arrival with that tuple, and the seen set ends up holding exactly the
tuples that arrived — so every later duplicate, from whichever poller, is
silently dropped. -/
theorem aggregator_dedup (rs : List NewsItem) (t : Tup) :
    ((deliver [] rs).map identTuple).count t
      = (if t ∈ rs.map identTuple then 1 else 0) ∧
    (deliver [] rs).find? (fun r => identTuple r = t)
      = rs.find? (fun r => identTuple r = t) ∧
    (t ∈ seenAfter [] rs ↔ t ∈ rs.map identTuple) := by
  refine ⟨?_, ?_, ?_⟩
  · exact deliver_count_of_not_mem t rs [] (by simp)
  · exact deliver_find_first t rs [] (by simp)
  · simpa using seenAfter_mem t rs []

/-! ## Suspension points (C7) -/

theorem intervalSleepAux_of_no_stop (stop : Nat → Bool)
    (h : ∀ j, stop j = false) :
    ∀ n j, intervalSleepAux stop n j = n := by
  intro n
  induction n with
  | zero => intro j; rfl
  | succ m ih =>
    intro j
    simp [intervalSleepAux, h j, ih (j + 1)]

theorem intervalSleepAux_min (stop : Nat → Bool) :
    ∀ (n j k : Nat), (∀ a, a < k → stop (j + a) = false) → stop (j + k) = true →
      intervalSleepAux stop n j = min n k := by
  intro n
  induction n with
  | zero => intro j k _ _; simp [intervalSleepAux]
  | succ m ih =>
    intro j k hlt hk
    cases k with
    | zero =>
      simp only [Nat.add_zero] at hk
      simp [intervalSleepAux, hk]
    | succ k =>
      have h0 : stop j = false := by simpa using hlt 0 (by omega)
      have hrest := ih (j + 1) k
        (fun a ha => by
          have h := hlt (a + 1) (by omega)
          rwa [show j + (a + 1) = j + 1 + a by omega] at h)
        (by rwa [show j + (k + 1) = j + 1 + k by omega] at hk)
      simp only [intervalSleepAux, h0, if_neg Bool.false_ne_true, hrest]
      omega

/-- C7 as stated is false on the code: under the natural reading that an
interruptible wait performs no sleep when its stop signal is already set
at the start of the wait, the fetcher's backoff wait is not interruptible
— with the stop signal constantly set, `backoffWait` for attempt 0 still
sleeps `2 ^ 0 = 1` second, because `time.sleep(2 ** attempt)` consults no
stop signal at all. -/
theorem suspension_claim_counterexample :
    ¬ (∀ stop : Nat → Bool, stop 0 = true →
        (∀ interval, intervalSleep stop interval = 0) ∧
        (∀ attempt, backoffWait stop attempt = 0) ∧
        aggregatorTickSleep stop = 0) := by
  intro h
  have h1 := (h (fun _ => true) rfl).2.1 0
  simp [backoffWait] at h1

/-- C7 amended: of the embedded suspension points, only the poller's
per-second interval sleep is interruptible by the stop signal — a stop
already set yields no sleep, a stop first set at the k-th one-second check
bounds the wait by `min interval k`, and an unset stop lets the full
interval elapse — while the fetcher's backoff wait always lasts the full
`2 ^ attempt` seconds and the aggregator's per-tick sleep always lasts its
full fixed second, both regardless of the stop signal. -/
theorem suspension_interruptibility (stop : Nat → Bool) (interval attempt : Nat) :
    (stop 0 = true → intervalSleep stop interval = 0) ∧
    ((∀ j, stop j = false) → intervalSleep stop interval = interval) ∧
    (∀ k, (∀ j, j < k → stop j = false) → stop k = true →
        intervalSleep stop interval = min interval k) ∧
    backoffWait stop attempt = 2 ^ attempt ∧
    aggregatorTickSleep stop = 1 := by
  refine ⟨?_, ?_, ?_, rfl, rfl⟩
  · intro h
    cases interval with
    | zero => rfl
    | succ n => simp [intervalSleep, intervalSleepAux, h]
  · intro h
    exact intervalSleepAux_of_no_stop stop h interval 0
  · intro k hlt hk
    exact intervalSleepAux_min stop interval 0 k (fun a ha => by simpa using hlt a ha)
      (by simpa using hk)

theorem suspension_interruptibility_witness :
    intervalSleep (fun _ => true) 60 = 0 ∧
    intervalSleep (fun _ => false) 60 = 60 ∧
    intervalSleep (fun j => decide (2 ≤ j)) 60 = min 60 2 ∧
    backoffWait (fun _ => true) 1 = 2 ∧
    aggregatorTickSleep (fun _ => true) = 1 :=
  ⟨(suspension_interruptibility (fun _ => true) 60 1).1 rfl,
   (suspension_interruptibility (fun _ => false) 60 1).2.1 (fun _ => rfl),
   (suspension_interruptibility (fun j => decide (2 ≤ j)) 60 1).2.2.1 2
     (by decide) (by decide),
   (suspension_interruptibility (fun _ => true) 60 1).2.2.2.1,
   (suspension_interruptibility (fun _ => true) 60 1).2.2.2.2⟩

/-! ## Lemmas about the extractor (C8) -/

theorem newsItem_init_fields (n t d ts : String) (item : NewsItem)
    (h : NewsItem.init n t d ts = .ok item) :
    item.name ≠ "" ∧ item.title ≠ "" ∧ item.desc ≠ "" ∧ item.timestamp ≠ "" := by
  unfold NewsItem.init at h
  split at h
  · exact absurd h (by simp)
  · next hcond =>
    push_neg at hcond
    cases h
    exact hcond

theorem parseHeadline_sound (w : String) (hd : Headline) (r : NewsItem)
    (hr : r ∈ parseHeadline w hd) :
    ∃ n t d ts, NewsItem.init n t d ts = .ok r := by
  unfold parseHeadline at hr
  split at hr
  · simp at hr
  · dsimp only at hr
    split at hr
    · split at hr
      · next heq =>
        simp only [List.mem_singleton] at hr
        exact ⟨_, _, _, _, hr ▸ heq⟩
      · simp at hr
    · simp at hr

/-- C8: the extractor is total and safe — every record it returns has all
four fields non-empty, the safe accessors turn missing sub-elements into
empty strings, a raising document yields the empty batch rather than an
escaped error, and a candidate item whose processing raises is skipped
while the records of the surrounding items are still produced. -/
theorem extract_safety (doc : Option Soup) :
    (∀ r ∈ Liputan6Parser.parse doc,
        r.name ≠ "" ∧ r.title ≠ "" ∧ r.desc ≠ "" ∧ r.timestamp ≠ "") ∧
    (∀ a, safe_get_text none = "" ∧ safe_get_attr none a = "") ∧
    Liputan6Parser.parse none = [] ∧
    (∀ ht pre bad post, bad.raises = true →
        Liputan6Parser.parse (some ⟨ht, pre ++ bad :: post⟩)
          = Liputan6Parser.parse (some ⟨ht, pre⟩)
              ++ Liputan6Parser.parse (some ⟨ht, post⟩)) := by
  refine ⟨?_, fun a => ⟨rfl, rfl⟩, rfl, ?_⟩
  · intro r hr
    match doc with
    | none => simp [Liputan6Parser.parse] at hr
    | some soup =>
      simp only [Liputan6Parser.parse, List.mem_flatten, List.mem_map] at hr
      obtain ⟨l, ⟨hd, _, rfl⟩, hrl⟩ := hr
      obtain ⟨n, t, d, ts, hok⟩ := parseHeadline_sound _ hd r hrl
      exact newsItem_init_fields n t d ts r hok
  · intro ht pre bad post hb
    have hsite : ∀ L : List Headline, getSiteName ⟨ht, L⟩ = getSiteName ⟨ht, []⟩ :=
      fun L => rfl
    have hbad : parseHeadline (getSiteName ⟨ht, []⟩) bad = [] := by
      simp [parseHeadline, hb]
    simp [Liputan6Parser.parse, hsite, hbad]

theorem extract_safety_witness :
    (sampleItem.name ≠ "" ∧ sampleItem.title ≠ "" ∧
      sampleItem.desc ≠ "" ∧ sampleItem.timestamp ≠ "") ∧
    safe_get_text none = "" ∧ safe_get_attr none "datetime" = "" ∧
    Liputan6Parser.parse (some ⟨some "SiteA", [goodHeadline, badHeadline]⟩)
      = Liputan6Parser.parse (some ⟨some "SiteA", [goodHeadline]⟩)
          ++ Liputan6Parser.parse (some ⟨some "SiteA", []⟩) := by
  refine ⟨?_, ?_, ?_, ?_⟩
  · exact (extract_safety (some ⟨some "SiteA", [goodHeadline]⟩)).1 sampleItem
      (by decide)
  · exact ((extract_safety none).2.1 "datetime").1
  · exact ((extract_safety none).2.1 "datetime").2
  · exact (extract_safety (some ⟨some "SiteA", [goodHeadline, badHeadline]⟩)).2.2.2
      (some "SiteA") [goodHeadline] badHeadline [] rfl

end NewsScraper
